import Mathlib

/-!
Verification of the word-count streaming notebook
(`notebooks/spark_basics/structured_streaming.ipynb`).

The notebook's own code is a short pipeline over a socket text stream:

  lines      = ssc.socketTextStream("localhost", 9999)
  words      = lines.flatMap(lambda line: line.split(" "))
  pairs      = words.map(lambda word: (word, 1))
  wordCounts = pairs.reduceByKey(lambda x, y: x + y)
  wordCounts.pprint()

We embed a micro-batch as a finite list of text lines (each a list of
characters), the lambdas as Lean functions with Python semantics
(`str.split(" ")` splits at every single space character, keeping empty
tokens, and returns `[""]` on the empty string), and `reduceByKey` as the
key-grouping reduce over the batch's pair list, keys in first-occurrence
order.  The notebook's sequence of engine calls is embedded as a concrete
trace of a `Call` datatype read off the cells in order.
-/

set_option autoImplicit false

abbrev Line := List Char

abbrev Word := List Char

/-- Split a list of characters at every character satisfying `p`, keeping
empty tokens between, before and after separators, and yielding `[[]]` on
the empty input.  With `p = (· == ' ')` this is exactly Python's
`str.split(" ")` from the notebook's flatMap lambda. -/
def splitBy (p : Char → Bool) : List Char → List (List Char)
  | [] => [[]]
  | c :: cs =>
    if p c then [] :: splitBy p cs
    else (c :: (splitBy p cs).headI) :: (splitBy p cs).tail

/-- The notebook's flatMap lambda `lambda line: line.split(" ")`. -/
def splitSpace (line : Line) : List Word :=
  splitBy (fun c => c == ' ') line

/-- The tokens of a batch: `lines.flatMap(lambda line: line.split(" "))`. -/
def wordsOf (batch : List Line) : List Word :=
  batch.flatMap splitSpace

/-- The notebook's map lambda `lambda word: (word, 1)` applied to every
token of the batch. -/
def pairsOf (batch : List Line) : List (Word × Nat) :=
  (wordsOf batch).map (fun w => (w, 1))

/-- Keys in first-occurrence order: keep the first copy of every element
and drop later duplicates. -/
def eraseDupFirst : List Word → List Word
  | [] => []
  | w :: ws => w :: (eraseDupFirst ws).filter (fun x => ¬ x = w)

/-- The values carried by the pairs whose key is `k`, in list order. -/
def valuesFor (k : Word) (ps : List (Word × Nat)) : List Nat :=
  (ps.filter (fun q => q.1 = k)).map Prod.snd

/-- Left-to-right reduction of a value group with the combining function,
as `reduceByKey` applies it; an (unreachable) empty group yields `0`. -/
def combineVals (f : Nat → Nat → Nat) : List Nat → Nat
  | [] => 0
  | v :: vs => vs.foldl f v

/-- `reduceByKey(f)`: one output pair per distinct key of the input, in
first-occurrence order, carrying the reduction of all values of that key. -/
def reduceByKey (f : Nat → Nat → Nat) (ps : List (Word × Nat)) : List (Word × Nat) :=
  (eraseDupFirst (ps.map Prod.fst)).map (fun k => (k, combineVals f (valuesFor k ps)))

/-- The notebook's `wordCounts` stream, per batch:
`pairs.reduceByKey(lambda x, y: x + y)`. -/
def wordCounts (batch : List Line) : List (Word × Nat) :=
  reduceByKey (fun x y => x + y) (pairsOf batch)

/-- The pairs `wordCounts.pprint()` prints for a batch.  The notebook's own
comment documents the behaviour: "Print the first ten elements of each RDD
generated in this DStream to the console" (pyspark's `DStream.pprint`
default). -/
def pprintOutput (batch : List Line) : List (Word × Nat) :=
  (wordCounts batch).take 10

/-- Whitespace characters, for the spec's reading of word splitting. -/
def isWsChar (c : Char) : Bool :=
  c == ' ' || c == '\t' || c == '\n' || c == '\r'

/-- Follows the spec's words, for comparison with the code's `splitSpace`:
"the whitespace-separated words of that line (i.e., splitting at any
whitespace, with no empty tokens)". -/
def specWhitespaceSplit (line : Line) : List Word :=
  (splitBy isWsChar line).filter (fun w => ¬ w = [])

/-- Join words with single spaces: the well-formed lines on which the
code's space splitting and the spec's whitespace splitting agree. -/
def joinSpace : List Word → Line
  | [] => []
  | [w] => w
  | w :: ws => w ++ ' ' :: joinSpace ws

/-- The number of occurrences of the token `w` in a token list. -/
def countOcc (w : Word) (ws : List Word) : Nat :=
  (ws.filter (fun x => x = w)).length

/-- The engine API calls the notebook's code cells issue, with their
arguments. -/
inductive Call where
  | sparkContext (master : String)
  | streamingContext (batchInterval : Nat)
  | socketTextStream (hostname : String) (port : Nat)
  | flatMapWords
  | mapToPairs
  | reduceByKeyAdd
  | pprint
  | start
  | awaitTermination (timeout : Nat)
deriving DecidableEq

/-- The notebook's calls, in the order its code cells issue them:
`SparkContext('local')`; `StreamingContext(sc, 5)`;
`ssc.socketTextStream("localhost", 9999)`; the flatMap, map and
reduceByKey transformations; `wordCounts.pprint()`; `ssc.start()`;
`ssc.awaitTermination(20)`. -/
def notebookTrace : List Call :=
  [Call.sparkContext "local",
   Call.streamingContext 5,
   Call.socketTextStream "localhost" 9999,
   Call.flatMapWords,
   Call.mapToPairs,
   Call.reduceByKeyAdd,
   Call.pprint,
   Call.start,
   Call.awaitTermination 20]

/-- Whether a call is a stream transformation (`pprint` is an output
operation, the rest are setup and lifecycle calls). -/
def Call.isTransformation : Call → Bool
  | .flatMapWords => true
  | .mapToPairs => true
  | .reduceByKeyAdd => true
  | _ => false

/-- The scalar (numeric) arguments a call passes to the engine. -/
def Call.scalarArgs : Call → List Nat
  | .streamingContext i => [i]
  | .socketTextStream _ p => [p]
  | .awaitTermination t => [t]
  | _ => []

/-- All scalar arguments the notebook supplies, in call order. -/
def notebookScalars : List Nat :=
  notebookTrace.flatMap Call.scalarArgs

/-- The transformations applied between the socket-stream creation and
`start()`. -/
def transformsBetween : List Call :=
  ((notebookTrace.dropWhile
      (fun c => ¬ c = Call.socketTextStream "localhost" 9999)).tail.takeWhile
    (fun c => ¬ c = Call.start)).filter Call.isTransformation

/-- Run the notebook's straight-line code against an engine whose calls may
fail: each call is issued in order, and the notebook's code contains no
handler, so the first error ends the run and is returned unchanged. -/
def runCalls (exec : Call → Except String Unit) : List Call → Except String Unit
  | [] => Except.ok ()
  | c :: cs =>
    match exec c with
    | Except.ok _ => runCalls exec cs
    | Except.error e => Except.error e

/-- The notebook's execution against the engine `exec`. -/
def runNotebook (exec : Call → Except String Unit) : Except String Unit :=
  runCalls exec notebookTrace

/-- A sample engine in which opening the socket stream is refused. -/
def refuseSocket : Call → Except String Unit
  | .socketTextStream _ _ => Except.error "Connection refused"
  | _ => Except.ok ()

/-! ## Helper lemmas -/

theorem splitBy_ne_nil (p : Char → Bool) (l : List Char) : splitBy p l ≠ [] := by
  cases l with
  | nil => simp [splitBy]
  | cons c cs =>
    simp only [splitBy]
    split <;> simp

theorem mem_eraseDupFirst (x : Word) (l : List Word) :
    x ∈ eraseDupFirst l ↔ x ∈ l := by
  induction l with
  | nil => simp [eraseDupFirst]
  | cons w ws ih =>
    simp only [eraseDupFirst, List.mem_cons, List.mem_filter,
      decide_eq_true_eq]
    by_cases hx : x = w
    · simp [hx]
    · simp [hx, ih]

theorem nodup_eraseDupFirst (l : List Word) : (eraseDupFirst l).Nodup := by
  induction l with
  | nil => simp [eraseDupFirst]
  | cons w ws ih =>
    refine List.Nodup.cons ?_ (List.Nodup.filter _ ih)
    simp [List.mem_filter]

theorem filter_eq_of_nodup (l : List Word) (h : l.Nodup) (w : Word) :
    l.filter (fun x => x = w) = if w ∈ l then [w] else [] := by
  induction l with
  | nil => simp
  | cons a l ih =>
    rcases List.nodup_cons.mp h with ⟨ha, hl⟩
    by_cases haw : a = w
    · subst haw
      simp [List.filter_cons, ih hl, ha]
    · simp [List.filter_cons, haw, ih hl, Ne.symm haw]

theorem foldl_add_replicate (m a : Nat) :
    List.foldl (fun x y => x + y) a (List.replicate m 1) = a + m := by
  induction m generalizing a with
  | zero => simp
  | succ m ih => simp [List.replicate_succ, List.foldl_cons, ih, Nat.add_assoc,
      Nat.add_comm 1 m]

theorem combineVals_add_replicate (n : Nat) :
    combineVals (fun x y => x + y) (List.replicate n 1) = n := by
  cases n with
  | zero => rfl
  | succ n =>
    simp only [List.replicate_succ, combineVals, foldl_add_replicate]
    omega

theorem valuesFor_map_pairs (ws : List Word) (w : Word) :
    valuesFor w (ws.map (fun x => (x, 1))) = List.replicate (countOcc w ws) 1 := by
  induction ws with
  | nil => rfl
  | cons a ws ih =>
    by_cases h : a = w
    · subst h
      simp only [valuesFor, countOcc, List.map_cons, List.filter_cons] at *
      simp [ih, List.replicate_succ]
    · simp only [valuesFor, countOcc, List.map_cons, List.filter_cons] at *
      simp [h, ih]

theorem map_fst_pairs (ws : List Word) :
    (ws.map (fun x => (x, (1 : Nat)))).map Prod.fst = ws := by
  induction ws with
  | nil => rfl
  | cons a ws ih => simp [ih]

theorem mem_wordCounts (batch : List Line) (q : Word × Nat) :
    q ∈ wordCounts batch ↔
      q.1 ∈ wordsOf batch ∧ q.2 = countOcc q.1 (wordsOf batch) := by
  unfold wordCounts reduceByKey pairsOf
  rw [map_fst_pairs]
  constructor
  · intro hq
    rcases List.mem_map.mp hq with ⟨k, hk, hgk⟩
    have hk1 : q.1 = k := by rw [← hgk]
    subst hk1
    refine ⟨(mem_eraseDupFirst _ _).mp hk, ?_⟩
    rw [← hgk]
    simp [valuesFor_map_pairs, combineVals_add_replicate]
  · rintro ⟨hmem, hval⟩
    refine List.mem_map.mpr ⟨q.1, (mem_eraseDupFirst _ _).mpr hmem, ?_⟩
    rw [valuesFor_map_pairs, combineVals_add_replicate]
    exact Prod.ext rfl hval.symm

theorem filter_fst_map_key (g : Word → Nat) (l : List Word) (w : Word) :
    ((l.map (fun k => (k, g k))).filter (fun q => q.1 = w)) =
      (l.filter (fun x => x = w)).map (fun k => (k, g k)) := by
  induction l with
  | nil => rfl
  | cons a l ih =>
    by_cases h : a = w
    · subst h
      simp [List.filter_cons, ih]
    · simp [List.filter_cons, h, ih]

theorem wordCounts_filter (batch : List Line) (w : Word) :
    (wordCounts batch).filter (fun q => q.1 = w) =
      if w ∈ wordsOf batch then [(w, countOcc w (wordsOf batch))] else [] := by
  unfold wordCounts reduceByKey pairsOf
  rw [map_fst_pairs, filter_fst_map_key, filter_eq_of_nodup _ (nodup_eraseDupFirst _)]
  by_cases hw : w ∈ wordsOf batch
  · rw [if_pos ((mem_eraseDupFirst _ _).mpr hw), if_pos hw]
    simp [valuesFor_map_pairs, combineVals_add_replicate]
  · rw [if_neg (fun hc => hw ((mem_eraseDupFirst _ _).mp hc)), if_neg hw]
    rfl

theorem splitBy_no_sep (p : Char → Bool) (w : List Char)
    (h : ∀ c ∈ w, p c = false) : splitBy p w = [w] := by
  induction w with
  | nil => rfl
  | cons c cs ih =>
    have hc : p c = false := h c (List.mem_cons_self c cs)
    have ih' := ih (fun x hx => h x (List.mem_cons_of_mem c hx))
    simp [splitBy, hc, ih']

theorem splitBy_sep_append (p : Char → Bool) (w : List Char) (c : Char)
    (rest : List Char) (hw : ∀ x ∈ w, p x = false) (hc : p c = true) :
    splitBy p (w ++ c :: rest) = w :: splitBy p rest := by
  induction w with
  | nil => simp [splitBy, hc]
  | cons a w ih =>
    have ha : p a = false := hw a (List.mem_cons_self a w)
    have ih' := ih (fun x hx => hw x (List.mem_cons_of_mem a hx))
    simp [splitBy, ha, ih']

theorem splitBy_joinSpace (p : Char → Bool) (hp : p ' ' = true) (ws : List Word)
    (hne : ws ≠ []) (h : ∀ w ∈ ws, ∀ c ∈ w, p c = false) :
    splitBy p (joinSpace ws) = ws := by
  induction ws with
  | nil => exact absurd rfl hne
  | cons w ws ih =>
    cases ws with
    | nil =>
      exact splitBy_no_sep p w (h w (List.mem_cons_self _ _))
    | cons w2 ws2 =>
      have hjoin : joinSpace (w :: w2 :: ws2) = w ++ ' ' :: joinSpace (w2 :: ws2) := rfl
      rw [hjoin, splitBy_sep_append p w ' ' _ (h w (List.mem_cons_self _ _)) hp,
        ih (by simp) (fun x hx => h x (List.mem_cons_of_mem _ hx))]

theorem countOcc_perm (w : Word) (l1 l2 : List Word) (h : l1.Perm l2) :
    countOcc w l1 = countOcc w l2 :=
  (h.filter _).length_eq

theorem runCalls_error_propagates (exec : Call → Except String Unit)
    (pre : List Call) (c : Call) (post : List Call) (e : String)
    (hpre : ∀ x ∈ pre, exec x = Except.ok ()) (hc : exec c = Except.error e) :
    runCalls exec (pre ++ c :: post) = Except.error e := by
  induction pre with
  | nil => simp [runCalls, hc]
  | cons a pre ih =>
    have ha : exec a = Except.ok () := hpre a (List.mem_cons_self _ _)
    simp only [List.cons_append, runCalls, ha]
    exact ih (fun x hx => hpre x (List.mem_cons_of_mem _ hx))

/-! ## The claims -/

/-- C1: for every batch given as a finite list of text lines, the pipeline
(flatMap of the space split, map to `(word, 1)`, reduceByKey with addition)
produces, for each word `w` occurring among the batch's tokens, exactly one
pair `(w, n)` where `n` is the number of occurrences of `w` among the
tokens of all lines of the batch, and no pair for any other key. -/
theorem claim1_wordCounts_exactly_counts (batch : List Line) (w : Word) :
    (wordCounts batch).filter (fun q => q.1 = w) =
      if w ∈ wordsOf batch then [(w, countOcc w (wordsOf batch))] else [] :=
  wordCounts_filter batch w

/-- C2: the batch consisting of the single line "apache spark" yields
exactly the pairs ('apache', 1) and ('spark', 1), and the batch consisting
of the single line "apache hadoop" yields exactly ('apache', 1) and
('hadoop', 1). -/
theorem claim2_example_batches :
    wordCounts ["apache spark".toList] =
        [("apache".toList, 1), ("spark".toList, 1)] ∧
      wordCounts ["apache hadoop".toList] =
        [("apache".toList, 1), ("hadoop".toList, 1)] := by
  constructor <;> rfl

/-- C3 fails on the code: on the line "a  b" (two spaces) the flatMap
lambda `line.split(" ")` produces the empty token between the spaces, so
the extracted words are not the whitespace-separated words of the line. -/
theorem claim3_counterexample :
    splitSpace ("a  b".toList) ≠ specWhitespaceSplit ("a  b".toList) := by
  decide

/-- C3 (amended): the pipeline splits a line only at single space
characters; for every line consisting of nonempty words that contain no
whitespace, separated by single spaces, the extracted words are exactly
those words, agreeing with whitespace splitting.  (On other lines the two
disagree: consecutive, leading or trailing spaces yield empty tokens, and
non-space whitespace is not a separator.) -/
theorem claim3_amended_single_space_words (ws : List Word) (hne : ws ≠ [])
    (h : ∀ w ∈ ws, ¬ w = [] ∧ ∀ c ∈ w, isWsChar c = false) :
    splitSpace (joinSpace ws) = ws ∧ specWhitespaceSplit (joinSpace ws) = ws := by
  have hsp : ∀ w ∈ ws, ∀ c ∈ w, (fun c => c == ' ') c = false := by
    intro w hw c hc
    have h2 := (h w hw).2 c hc
    simp only [isWsChar, Bool.or_eq_false_iff] at h2
    exact h2.1.1.1
  constructor
  · exact splitBy_joinSpace _ rfl ws hne hsp
  · unfold specWhitespaceSplit
    rw [splitBy_joinSpace isWsChar rfl ws hne (fun w hw => (h w hw).2)]
    exact List.filter_eq_self.mpr (fun w hw => by
      simpa using (h w hw).1)

theorem claim3_amended_witness :
    splitSpace (joinSpace ["ab".toList, "c".toList]) =
        ["ab".toList, "c".toList] ∧
      specWhitespaceSplit (joinSpace ["ab".toList, "c".toList]) =
        ["ab".toList, "c".toList] :=
  claim3_amended_single_space_words ["ab".toList, "c".toList] (by decide)
    (by decide)

/-- C4 fails on the code: the notebook applies three transformations to the
stream between creating the socket stream and starting the computation
(flatMap, map and reduceByKey), not two. -/
theorem claim4_counterexample :
    ¬ (notebookTrace.filter Call.isTransformation).length = 2 := by
  decide

/-- C4 (amended): between creating the socket stream and starting the
computation the notebook applies exactly three transformations — flatMap,
map and reduceByKey, in that order — and in total it issues nine calls:
context creation (Spark and streaming contexts), socket-stream creation,
the three transformations, the print output operation, start, and await
termination, in that order. -/
theorem claim4_amended_three_transformations :
    transformsBetween = [Call.flatMapWords, Call.mapToPairs, Call.reduceByKeyAdd] ∧
      (notebookTrace.filter Call.isTransformation).length = 3 ∧
      notebookTrace.length = 9 := by
  decide

/-- C5 fails on the code: the notebook also passes the port number 9999 as
a scalar argument (to `socketTextStream`), so the batch interval and the
await-termination timeout are not the only scalar parameters supplied. -/
theorem claim5_counterexample :
    ¬ ∀ n ∈ notebookScalars, n = 5 ∨ n = 20 := by
  decide

/-- C5 (amended): the scalar parameters the notebook supplies to the
engine are exactly three, in call order: the batch interval 5, the port
number 9999, and the await-termination timeout 20. -/
theorem claim5_amended_three_scalars :
    notebookScalars = [5, 9999, 20] := by
  decide

/-- C6: the notebook calls the engine with literal arguments for all four
of hostname ("localhost"), port (9999), batch interval (5 seconds) and
termination timeout (20 seconds): these literals occur in its (constant)
call trace. -/
theorem claim6_literal_arguments :
    Call.streamingContext 5 ∈ notebookTrace ∧
      Call.socketTextStream "localhost" 9999 ∈ notebookTrace ∧
      Call.awaitTermination 20 ∈ notebookTrace := by
  decide

/-- C7 fails on the code: `pprint` prints only the first ten pairs of a
batch (the notebook's own comment: "Print the first ten elements of each
RDD"), so a batch with eleven distinct words prints fewer pairs than the
pipeline computes. -/
theorem claim7_counterexample :
    pprintOutput ["a b c d e f g h i j k".toList] ≠
      wordCounts ["a b c d e f g h i j k".toList] := by
  decide

/-- C7 (amended): the pairs printed for a batch are the first ten pairs of
that batch's pipeline result; whenever the batch's result has at most ten
pairs, the printed pairs are exactly the pairs computed by the pipeline. -/
theorem claim7_amended_pprint_first_ten (batch : List Line)
    (h : (wordCounts batch).length ≤ 10) :
    pprintOutput batch = wordCounts batch :=
  List.take_of_length_le h

theorem claim7_amended_witness :
    (wordCounts ["apache spark".toList]).length ≤ 10 ∧
      pprintOutput ["apache spark".toList] = wordCounts ["apache spark".toList] :=
  ⟨by decide, claim7_amended_pprint_first_ten ["apache spark".toList] (by decide)⟩

/-- C8: the notebook's code contains no handler: when the engine's
execution of any one of the notebook's calls raises an error — the calls
before it succeeding — the error propagates out of the notebook's
straight-line code unchanged, and no alternative behaviour is taken. -/
theorem claim8_errors_propagate (exec : Call → Except String Unit)
    (pre : List Call) (c : Call) (post : List Call) (e : String)
    (hsplit : notebookTrace = pre ++ c :: post)
    (hpre : ∀ x ∈ pre, exec x = Except.ok ())
    (hc : exec c = Except.error e) :
    runNotebook exec = Except.error e := by
  unfold runNotebook
  rw [hsplit]
  exact runCalls_error_propagates exec pre c post e hpre hc

theorem claim8_witness :
    runNotebook refuseSocket = Except.error "Connection refused" :=
  claim8_errors_propagate refuseSocket
    [Call.sparkContext "local", Call.streamingContext 5]
    (Call.socketTextStream "localhost" 9999)
    [Call.flatMapWords, Call.mapToPairs, Call.reduceByKeyAdd, Call.pprint,
      Call.start, Call.awaitTermination 20]
    "Connection refused" rfl
    (by
      intro x hx
      rcases List.mem_cons.mp hx with rfl | hx
      · rfl
      rcases List.mem_cons.mp hx with rfl | hx
      · rfl
      · exact absurd hx (List.not_mem_nil x))
    rfl

/-- C9: the word-count result depends only on the multiset of tokens of
the batch: for two batches whose line lists — or, more generally, whose
token lists — are permutations of each other, the resulting sets of
(word, count) pairs coincide. -/
theorem claim9_perm_invariant (b1 b2 : List Line)
    (h : b1.Perm b2 ∨ (wordsOf b1).Perm (wordsOf b2)) :
    ∀ q : Word × Nat, q ∈ wordCounts b1 ↔ q ∈ wordCounts b2 := by
  have hw : (wordsOf b1).Perm (wordsOf b2) := by
    rcases h with h | h
    · exact h.flatMap_right splitSpace
    · exact h
  intro q
  rw [mem_wordCounts, mem_wordCounts]
  constructor <;> rintro ⟨hm, hv⟩
  · exact ⟨hw.mem_iff.mp hm, hv.trans (countOcc_perm _ _ _ hw)⟩
  · exact ⟨hw.mem_iff.mpr hm, hv.trans (countOcc_perm _ _ _ hw.symm)⟩

theorem claim9_witness :
    ("spark".toList, 1) ∈
        wordCounts ["apache spark".toList, "apache hadoop".toList] ↔
      ("spark".toList, 1) ∈
        wordCounts ["apache hadoop".toList, "apache spark".toList] :=
  claim9_perm_invariant _ _ (Or.inl (by decide)) _

/-- C10: the pipeline counts the empty string as a word on lines with
consecutive spaces — on the line "a  b" the pair ('', 1) appears in the
batch's result — and in every batch result each count is positive. -/
theorem claim10_empty_token_and_positive :
    (([], 1) ∈ wordCounts ["a  b".toList]) ∧
      ∀ (batch : List Line) (q : Word × Nat), q ∈ wordCounts batch → 0 < q.2 := by
  constructor
  · decide
  · intro batch q hq
    rcases (mem_wordCounts batch q).mp hq with ⟨hm, hv⟩
    rw [hv]
    have hqf : q.1 ∈ (wordsOf batch).filter (fun x => x = q.1) :=
      List.mem_filter.mpr ⟨hm, by simp⟩
    exact List.length_pos_of_mem hqf

theorem claim10_witness :
    (([], 1) ∈ wordCounts ["a  b".toList]) ∧ 0 < (1 : Nat) :=
  ⟨claim10_empty_token_and_positive.1,
    claim10_empty_token_and_positive.2 ["a  b".toList] ([], 1)
      claim10_empty_token_and_positive.1⟩
